import Mathlib

/-!
Shallow embedding of the TochkaProjectWW exchange core
(`app/routers/orders.py`, `app/routers/balances.py`,
`app/routers/instruments.py`, `app/models.py`).

Quantities and prices are `Numeric(18,8)` fixed-point decimals in the
source, and every amount, quantity or price the API accepts is an
integer (`schemas.py`: `qty`, `price` and balance-operation amounts are
`int` fields); the arithmetic the core performs on them (+, -, *,
comparisons) is exact and preserves integrality, so they are embedded
as integers.  User ids are embedded as naturals, tickers as strings.
Order ids are assigned from a counter, so insertion order, id order and
`created_at` order coincide, exactly as in the source where both the id
and the timestamp are generated at insertion time.
-/

namespace WW

inductive OrderType where
  | LIMIT
  | MARKET
deriving DecidableEq, Repr

inductive OrderSide where
  | BUY
  | SELL
deriving DecidableEq, Repr

inductive OrderStatus where
  | OPEN
  | PARTIALLY_FILLED
  | FILLED
  | CANCELLED
deriving DecidableEq, Repr

/-- Row of the `orders` table (`models.Order`).  `price` is `none` for
MARKET orders (nullable column). -/
structure Order where
  id : Nat
  userId : Nat
  ticker : String
  order_type : OrderType
  side : OrderSide
  quantity : ℤ
  price : Option ℤ
  filled_quantity : ℤ
  status : OrderStatus
  createdAt : Nat
deriving DecidableEq, Repr

/-- Row of the `balances` table (`models.Balance`). -/
structure Balance where
  userId : Nat
  ticker : String
  amount : ℤ
deriving DecidableEq, Repr

/-- Row of the `transactions` table (`models.Transaction`). -/
structure Trade where
  ticker : String
  price : ℤ
  quantity : ℤ
  buyerId : Nat
  sellerId : Nat
  buyOrderId : Nat
  sellOrderId : Nat
  timestamp : Nat
deriving DecidableEq, Repr

/-- The persistent state: the five relations the matching core touches,
plus the id/timestamp source. -/
structure Exchange where
  users : List Nat
  instruments : List String
  balances : List Balance
  orders : List Order
  trades : List Trade
  nextOrderId : Nat
  clock : Nat
deriving DecidableEq, Repr

/-! ### Balance-table primitives

The source always fetches a balance row with
`db.query(Balance).filter(user_id == u, ticker == t).first()` and then
mutates that row in place; rows are created explicitly with
`db.add(Balance(...))`. -/

/-- `db.query(Balance).filter(...).first()`. -/
def findBalance (bs : List Balance) (u : Nat) (t : String) : Option Balance :=
  bs.find? (fun b => b.userId = u ∧ b.ticker = t)

/-- Free amount of a user in a ticker, `none` when no row exists. -/
def getAmount (s : Exchange) (u : Nat) (t : String) : Option ℤ :=
  (findBalance s.balances u t).map (·.amount)

/-- Mutate the first row matching `(u, t)` (the row `.first()` returned);
no-op when the row is absent, matching the source's `if balance: ...`
guards. -/
def mapFirstBalance (bs : List Balance) (u : Nat) (t : String) (f : ℤ → ℤ) :
    List Balance :=
  match bs with
  | [] => []
  | b :: rest =>
    if b.userId = u ∧ b.ticker = t then { b with amount := f b.amount } :: rest
    else b :: mapFirstBalance rest u t f

/-- Credit that creates the row when absent (`execute_deal` buyer/seller
legs, admin `deposit`). -/
def creditBalance (bs : List Balance) (u : Nat) (t : String) (d : ℤ) :
    List Balance :=
  match findBalance bs u t with
  | some _ => mapFirstBalance bs u t (· + d)
  | none => bs ++ [⟨u, t, d⟩]

/-! ### Order-table primitives -/

/-- `db.query(Order).filter(Order.id == oid).first()`. -/
def findOrder (os : List Order) (oid : Nat) : Option Order :=
  os.find? (fun o => o.id = oid)

/-- In-place mutation of the row with id `oid`. -/
def updateOrder (os : List Order) (oid : Nat) (f : Order → Order) : List Order :=
  os.map (fun o => if o.id = oid then f o else o)

/-- Whether a row can appear in the matching counter-query:
`Order.status.in_([OPEN, PARTIALLY_FILLED])`. -/
def activeStatus (st : OrderStatus) : Prop :=
  st = OrderStatus.OPEN ∨ st = OrderStatus.PARTIALLY_FILLED

instance (st : OrderStatus) : Decidable (activeStatus st) := by
  unfold activeStatus; infer_instance

/-! ### ORDER BY price on a nullable column

The backend is PostgreSQL (`database.py`), whose defaults are
NULLS LAST for ascending and NULLS FIRST for descending sorts. -/

/-- Ascending by price, NULLs last. -/
def ascPrice (a b : Option ℤ) : Prop :=
  match a, b with
  | some x, some y => x ≤ y
  | some _, none => True
  | none, some _ => False
  | none, none => True

/-- Descending by price, NULLs first. -/
def descPrice (a b : Option ℤ) : Prop :=
  match a, b with
  | some x, some y => y ≤ x
  | some _, none => False
  | none, _ => True

instance : DecidableRel ascPrice := fun a b => by
  cases a <;> cases b <;> simp [ascPrice] <;> infer_instance

instance : DecidableRel descPrice := fun a b => by
  cases a <;> cases b <;> simp [descPrice] <;> infer_instance

instance : IsTotal (Option ℤ) ascPrice :=
  ⟨fun a b => by cases a <;> cases b <;> simp [ascPrice]; exact le_total _ _⟩

instance : IsTrans (Option ℤ) ascPrice :=
  ⟨fun a b c => by
    cases a <;> cases b <;> cases c <;> simp [ascPrice]; exact le_trans⟩

instance : IsTotal (Option ℤ) descPrice :=
  ⟨fun a b => by cases a <;> cases b <;> simp [descPrice]; exact le_total _ _⟩

instance : IsTrans (Option ℤ) descPrice :=
  ⟨fun a b c => by
    cases a <;> cases b <;> cases c <;> simp [descPrice]
    exact fun h h' => le_trans h' h⟩

/-- Comparison used by the counter-query for side `sd` of the incoming
order: a BUY taker scans SELL orders ascending by price, a SELL taker
scans BUY orders descending. -/
def sideRel (sd : OrderSide) : Option ℤ → Option ℤ → Prop :=
  match sd with
  | OrderSide.BUY => ascPrice
  | OrderSide.SELL => descPrice

instance (sd : OrderSide) : DecidableRel (sideRel sd) := by
  cases sd <;> (unfold sideRel; infer_instance)

/-- SQL row filter of the counter-query in `execute_matching`
(lines 282-309 of `orders.py`): opposite side, same ticker, active
status, and — for a LIMIT taker only — a price satisfying the limit.
A NULL price never satisfies a SQL comparison, so MARKET (NULL-price)
rows pass only the MARKET-taker query, which has no price clause. -/
def counterFilter (order : Order) (o : Order) : Prop :=
  o.ticker = order.ticker ∧
  (match order.side with
   | OrderSide.BUY => o.side = OrderSide.SELL
   | OrderSide.SELL => o.side = OrderSide.BUY) ∧
  activeStatus o.status ∧
  (match order.order_type with
   | OrderType.MARKET => True
   | OrderType.LIMIT =>
     match order.side, o.price, order.price with
     | OrderSide.BUY, some p, some lim => p ≤ lim
     | OrderSide.SELL, some p, some lim => lim ≤ p
     | _, _, _ => False)

instance (order o : Order) : Decidable (counterFilter order o) := by
  unfold counterFilter
  cases order.side <;> cases order.order_type <;> dsimp <;>
    first
      | infer_instance
      | (cases o.price <;> cases order.price <;> dsimp <;> infer_instance)

/-- The materialized counter-query result (`.all()`), in the order the
database returns it.  ORDER BY sorts by price alone; among equal prices
the embedding keeps table order, one of the orders the database may
return. -/
def counterQuery (s : Exchange) (order : Order) : List Order :=
  (s.orders.filter (fun o => decide (counterFilter order o))).insertionSort
    (fun a b => sideRel order.side a.price b.price)

/-! ### Deal execution (`execute_deal`, orders.py lines 339-410)

The session commits at the end of each deal, so one `execute_deal` is
one state transition.  The source persists no record of the deal (it
never constructs a `models.Transaction`); for stating properties the
loop below additionally returns a ghost log of the deals it executed. -/

/-- Observation record of one executed deal (not part of the persisted
state — the source stores nothing per deal). -/
structure DealRec where
  takerId : Nat
  counterId : Nat
  buyerId : Nat
  sellerId : Nat
  quantity : ℤ
  price : ℤ
deriving DecidableEq, Repr

/-- `execute_deal(db, order, counter_order, quantity, price)`.
`order` and `counter` are the current row values; fields read from them
(`side`, `user_id`, `ticker`, `order_type`, `price`, `quantity`,
`filled_quantity`) are never mutated before the reads happen in the
source, so row snapshots are faithful.  Effects, in source order:
credit the buyer with `quantity` of the traded ticker (creating the row
when absent), credit the seller with `quantity * price` RUB (creating
the row when absent), refund a LIMIT buyer the positive part of
`quantity * buyer.price - quantity * price` RUB (only when the RUB row
exists), bump both `filled_quantity`, and set the counter-order's
status.  Note: no leg ever debits a MARKET buyer, and no trade row is
appended. -/
def execute_deal (s : Exchange) (order counter : Order) (quantity price : ℤ) :
    Exchange :=
  let buyerId := if order.side = OrderSide.BUY then order.userId else counter.userId
  let sellerId := if order.side = OrderSide.BUY then counter.userId else order.userId
  let buyerOrder := if order.side = OrderSide.BUY then order else counter
  let deal_amount := quantity * price
  let bs1 := creditBalance s.balances buyerId order.ticker quantity
  let bs2 := creditBalance bs1 sellerId "RUB" deal_amount
  let bs3 :=
    if buyerOrder.order_type = OrderType.LIMIT then
      let reserved_amount := quantity * buyerOrder.price.getD 0
      let refund_amount := reserved_amount - deal_amount
      if 0 < refund_amount then mapFirstBalance bs2 buyerId "RUB" (· + refund_amount)
      else bs2
    else bs2
  let os1 := updateOrder s.orders order.id
    (fun o => { o with filled_quantity := o.filled_quantity + quantity })
  let os2 := updateOrder os1 counter.id
    (fun o =>
      let nf := o.filled_quantity + quantity
      { o with
          filled_quantity := nf,
          status := if o.quantity ≤ nf then OrderStatus.FILLED
                    else OrderStatus.PARTIALLY_FILLED })
  { s with balances := bs3, orders := os2 }

/-- The `for counter_order in counter_orders:` loop of
`execute_matching` (lines 311-324), parametric in the id list the query
returned.  Each iteration re-reads the current rows.  The boolean marks
the exception path: `deal_price = counter_order.price` is `None` for a
MARKET counter-row, and `quantity * price` then raises `TypeError`
inside `execute_deal` before any of that deal's effects; the state
carried out is the one committed so far. -/
def matchLoop (s : Exchange) (orderId : Nat) :
    List Nat → Exchange × List DealRec × Bool
  | [] => (s, [], false)
  | cid :: rest =>
    match findOrder s.orders orderId, findOrder s.orders cid with
    | some order, some counter =>
      if order.quantity ≤ order.filled_quantity then (s, [], false)
      else if counter.userId = order.userId then matchLoop s orderId rest
      else
        match counter.price with
        | none => (s, [], true)
        | some p =>
          let q := min (order.quantity - order.filled_quantity)
                       (counter.quantity - counter.filled_quantity)
          let s' := execute_deal s order counter q p
          let r := matchLoop s' orderId rest
          (r.1, ⟨orderId, cid,
                 (if order.side = OrderSide.BUY then order.userId else counter.userId),
                 (if order.side = OrderSide.BUY then counter.userId else order.userId),
                 q, p⟩ :: r.2.1, r.2.2)
    | _, _ => (s, [], true)

/-- Final status assignment of `execute_matching` (lines 326-336),
applied to the taker row after the loop. -/
def finalStatus (o : Order) : OrderStatus :=
  let rem := o.quantity - o.filled_quantity
  let st :=
    if rem = 0 then OrderStatus.FILLED
    else if 0 < o.filled_quantity then OrderStatus.PARTIALLY_FILLED
    else o.status
  if o.order_type = OrderType.MARKET ∧ 0 < rem then
    (if o.filled_quantity = 0 then OrderStatus.CANCELLED
     else OrderStatus.PARTIALLY_FILLED)
  else st

/-- `execute_matching(db, order_id)` run against an explicit
counter-list (the query's result), used both by the deterministic
entry point below and to quantify over every row order the database
may return. -/
def execute_matching_on (s : Exchange) (orderId : Nat) (counters : List Nat) :
    Exchange × List DealRec × Bool :=
  match findOrder s.orders orderId with
  | none => (s, [], true)
  | some order =>
    if order.status ≠ OrderStatus.OPEN then (s, [], false)
    else
      let r := matchLoop s orderId counters
      if r.2.2 then r
      else
        ({ r.1 with
            orders := updateOrder r.1.orders orderId
              (fun o => { o with status := finalStatus o }) },
         r.2.1, false)

/-- `execute_matching(db, order_id)` with the counter-list produced by
the embedded query. -/
def execute_matching (s : Exchange) (orderId : Nat) :
    Exchange × List DealRec × Bool :=
  match findOrder s.orders orderId with
  | none => (s, [], true)
  | some order => execute_matching_on s orderId ((counterQuery s order).map (·.id))

/-- `cancel_order_and_return_funds(db, order_id)` (lines 413-444): the
compensation path of `create_order`.  No status precondition; refunds
the remaining reservation (RUB for BUY+LIMIT, asset for SELL, nothing
for BUY+MARKET) and sets CANCELLED. -/
def cancel_order_and_return_funds (s : Exchange) (orderId : Nat) : Exchange :=
  match findOrder s.orders orderId with
  | none => s
  | some o =>
    let rem := o.quantity - o.filled_quantity
    let bs :=
      if 0 < rem then
        if o.side = OrderSide.BUY ∧ o.order_type = OrderType.LIMIT then
          mapFirstBalance s.balances o.userId "RUB" (· + rem * o.price.getD 0)
        else if o.side = OrderSide.SELL then
          mapFirstBalance s.balances o.userId o.ticker (· + rem)
        else s.balances
      else s.balances
    { s with
        balances := bs,
        orders := updateOrder s.orders orderId
          (fun o => { o with status := OrderStatus.CANCELLED }) }

/-! ### Endpoint handlers -/

inductive ApiError where
  | notFound
  | badRequest
  | internal
deriving DecidableEq, Repr

/-- Outcome of a state-changing endpoint: the (possibly changed) state
is carried on both branches, because the 500 path of `create_order`
surfaces an error only after the compensating cancellation has
committed. -/
inductive ApiResult where
  | ok (s : Exchange) (orderId : Nat)
  | err (e : ApiError) (s : Exchange)
deriving DecidableEq, Repr

/-- Resulting state of an `ApiResult`, whichever branch was taken. -/
def ApiResult.state : ApiResult → Exchange
  | ApiResult.ok s _ => s
  | ApiResult.err _ s => s

/-- `create_order` (orders.py lines 73-175).  Steps in source order:
instrument lookup (404), order-type inference from the presence of a
price, RUB instrument lookup (500), funds pre-check (400: BUY+LIMIT
needs free RUB ≥ price·qty, BUY+MARKET needs free RUB > 0, SELL needs
free asset ≥ qty), insert of the OPEN order (committed), the
reservation debit (committed separately), then `execute_matching`;
if matching raises, `cancel_order_and_return_funds` runs and a 500 is
returned with the compensated state. -/
def create_order_full (s : Exchange) (userId : Nat) (ticker : String)
    (side : OrderSide) (quantity : ℤ) (price : Option ℤ) :
    ApiResult × List DealRec :=
  if ticker ∉ s.instruments then (ApiResult.err ApiError.notFound s, [])
  else
    let order_type := if price.isSome then OrderType.LIMIT else OrderType.MARKET
    if "RUB" ∉ s.instruments then (ApiResult.err ApiError.internal s, [])
    else
      let fundsOk : Bool :=
        match side with
        | OrderSide.BUY =>
          match findBalance s.balances userId "RUB" with
          | none => false
          | some b =>
            match order_type with
            | OrderType.LIMIT => decide (price.getD 0 * quantity ≤ b.amount)
            | OrderType.MARKET => decide (0 < b.amount)
        | OrderSide.SELL =>
          match findBalance s.balances userId ticker with
          | none => false
          | some b => decide (quantity ≤ b.amount)
      if ¬ fundsOk then (ApiResult.err ApiError.badRequest s, [])
      else
        let oid := s.nextOrderId
        let newOrder : Order :=
          { id := oid, userId := userId, ticker := ticker,
            order_type := order_type, side := side, quantity := quantity,
            price := price, filled_quantity := 0,
            status := OrderStatus.OPEN, createdAt := s.clock }
        let s1 : Exchange :=
          { s with
              orders := s.orders ++ [newOrder],
              nextOrderId := oid + 1, clock := s.clock + 1 }
        let bs2 :=
          if side = OrderSide.BUY ∧ order_type = OrderType.LIMIT then
            mapFirstBalance s1.balances userId "RUB" (· - price.getD 0 * quantity)
          else if side = OrderSide.SELL then
            mapFirstBalance s1.balances userId ticker (· - quantity)
          else s1.balances
        let s2 : Exchange := { s1 with balances := bs2 }
        let r := execute_matching s2 oid
        if r.2.2 then
          (ApiResult.err ApiError.internal (cancel_order_and_return_funds r.1 oid),
           r.2.1)
        else (ApiResult.ok r.1 oid, r.2.1)

/-- `create_order` as the endpoint returns it. -/
def create_order (s : Exchange) (userId : Nat) (ticker : String)
    (side : OrderSide) (quantity : ℤ) (price : Option ℤ) : ApiResult :=
  (create_order_full s userId ticker side quantity price).1

/-- `cancel_order` (orders.py lines 213-268): user-facing cancellation.
404 when the order is missing or foreign, 400 when the status is
terminal; otherwise refunds the remaining reservation (only when the
balance row exists) and sets CANCELLED. -/
def cancel_order (s : Exchange) (userId : Nat) (orderId : Nat) : ApiResult :=
  match s.orders.find? (fun o => o.id = orderId ∧ o.userId = userId) with
  | none => ApiResult.err ApiError.notFound s
  | some o =>
    if o.status ≠ OrderStatus.OPEN ∧ o.status ≠ OrderStatus.PARTIALLY_FILLED then
      ApiResult.err ApiError.badRequest s
    else
      let rem := o.quantity - o.filled_quantity
      let bs :=
        if 0 < rem then
          if o.side = OrderSide.BUY ∧ o.order_type = OrderType.LIMIT then
            mapFirstBalance s.balances userId "RUB" (· + rem * o.price.getD 0)
          else if o.side = OrderSide.SELL then
            mapFirstBalance s.balances userId o.ticker (· + rem)
          else s.balances
        else s.balances
      ApiResult.ok
        { s with
            balances := bs,
            orders := updateOrder s.orders orderId
              (fun o => { o with status := OrderStatus.CANCELLED }) }
        orderId

/-- Admin `deposit` (balances.py lines 40-82): 404 on unknown user or
instrument, otherwise credit, creating the row when absent. -/
def deposit (s : Exchange) (userId : Nat) (ticker : String) (amount : ℤ) :
    ApiResult :=
  if userId ∉ s.users then ApiResult.err ApiError.notFound s
  else if ticker ∉ s.instruments then ApiResult.err ApiError.notFound s
  else
    ApiResult.ok
      { s with balances := creditBalance s.balances userId ticker amount } 0

/-- Admin `withdraw` (balances.py lines 85-131): 404 on unknown user or
instrument, 400 when no row or insufficient funds, else debit. -/
def withdraw (s : Exchange) (userId : Nat) (ticker : String) (amount : ℤ) :
    ApiResult :=
  if userId ∉ s.users then ApiResult.err ApiError.notFound s
  else if ticker ∉ s.instruments then ApiResult.err ApiError.notFound s
  else
    match findBalance s.balances userId ticker with
    | none => ApiResult.err ApiError.badRequest s
    | some b =>
      if b.amount < amount then ApiResult.err ApiError.badRequest s
      else
        ApiResult.ok
          { s with balances := mapFirstBalance s.balances userId ticker (· - amount) } 0

/-- `delete_instrument` (instruments.py lines 63-83): 404 when the
ticker is unknown; otherwise delete every Balance row and every Order
row carrying the ticker, then the instrument row itself. -/
def delete_instrument (s : Exchange) (ticker : String) : ApiResult :=
  if ticker ∉ s.instruments then ApiResult.err ApiError.notFound s
  else
    ApiResult.ok
      { s with
          instruments := s.instruments.filter (fun t => t ≠ ticker),
          balances := s.balances.filter (fun b => b.ticker ≠ ticker),
          orders := s.orders.filter (fun o => o.ticker ≠ ticker) } 0

/-! ### Order-book snapshot (`get_orderbook`, orders.py lines 15-67) -/

/-- Price-level accumulation in Python dict insertion order
(`bid_levels[price] += ...`). -/
def addLevel : List (Option ℤ × ℤ) → Option ℤ → ℤ → List (Option ℤ × ℤ)
  | [], p, q => [(p, q)]
  | (p', q') :: rest, p, q =>
    if p' = p then (p', q' + q) :: rest else (p', q') :: addLevel rest p q

/-- Aggregate remaining quantity (`quantity - filled_quantity`) by
price over a list of orders. -/
def aggregateLevels (os : List Order) : List (Option ℤ × ℤ) :=
  os.foldl (fun acc o => addLevel acc o.price (o.quantity - o.filled_quantity)) []

def levelAsc (a b : Option ℤ × ℤ) : Prop := ascPrice a.1 b.1

def levelDesc (a b : Option ℤ × ℤ) : Prop := descPrice a.1 b.1

instance : DecidableRel levelAsc := fun a b => by unfold levelAsc; infer_instance

instance : DecidableRel levelDesc := fun a b => by unfold levelDesc; infer_instance

def orderPriceAsc (a b : Order) : Prop := ascPrice a.price b.price

def orderPriceDesc (a b : Order) : Prop := descPrice a.price b.price

instance : DecidableRel orderPriceAsc := fun a b => by
  unfold orderPriceAsc; infer_instance

instance : DecidableRel orderPriceDesc := fun a b => by
  unfold orderPriceDesc; infer_instance

/-- Rows of one side of the book as the snapshot queries them: same
ticker, given side, and status OPEN — PARTIALLY_FILLED rows are NOT
included by the source's filter. -/
def openSideOrders (s : Exchange) (ticker : String) (sd : OrderSide) : List Order :=
  s.orders.filter
    (fun o => o.ticker = ticker ∧ o.side = sd ∧ o.status = OrderStatus.OPEN)

/-- The rows one side of the snapshot iterates over: the order query
sorted by price (bids descending, asks ascending) with `.limit(limit)`
applied to ORDERS, before any aggregation. -/
def takenSide (s : Exchange) (ticker : String) (sd : OrderSide) (limit : Nat) :
    List Order :=
  match sd with
  | OrderSide.BUY =>
    ((openSideOrders s ticker OrderSide.BUY).insertionSort orderPriceDesc).take limit
  | OrderSide.SELL =>
    ((openSideOrders s ticker OrderSide.SELL).insertionSort orderPriceAsc).take limit

/-- `get_orderbook(ticker, limit)`: the source applies `.limit(limit)`
to the two order queries (sorted by price, bids descending and asks
ascending) BEFORE aggregating by price level, then sorts the resulting
levels by price. -/
def get_orderbook (s : Exchange) (ticker : String) (limit : Nat) :
    Option (List (Option ℤ × ℤ) × List (Option ℤ × ℤ)) :=
  if ticker ∉ s.instruments then none
  else
    some ((aggregateLevels (takenSide s ticker OrderSide.BUY limit)).insertionSort
            levelDesc,
          (aggregateLevels (takenSide s ticker OrderSide.SELL limit)).insertionSort
            levelAsc)

/-- The snapshot the spec describes, stated from its words for
comparison with `get_orderbook`: aggregate remaining quantity by price
over ALL resting orders (status OPEN or PARTIALLY_FILLED) first, then
return the top `limit` price LEVELS per side, bids descending and asks
ascending. -/
def snapshotSpec (s : Exchange) (ticker : String) (limit : Nat) :
    Option (List (Option ℤ × ℤ) × List (Option ℤ × ℤ)) :=
  if ticker ∉ s.instruments then none
  else
    let bidsAll := s.orders.filter
      (fun o => o.ticker = ticker ∧ o.side = OrderSide.BUY ∧ activeStatus o.status)
    let asksAll := s.orders.filter
      (fun o => o.ticker = ticker ∧ o.side = OrderSide.SELL ∧ activeStatus o.status)
    some (((aggregateLevels bidsAll).insertionSort levelDesc).take limit,
          ((aggregateLevels asksAll).insertionSort levelAsc).take limit)

/-! ### Conservation bookkeeping (spec section 8) -/

/-- Remaining (unfilled) quantity of an order. -/
def remaining (o : Order) : ℤ := o.quantity - o.filled_quantity

/-- Reservation an order holds in ticker `t`: remaining units of the
asset for an active SELL, remaining·price RUB for an active BUY+LIMIT. -/
def orderReserve (t : String) (o : Order) : ℤ :=
  if activeStatus o.status then
    (if o.side = OrderSide.SELL ∧ o.ticker = t then remaining o else 0) +
    (if o.side = OrderSide.BUY ∧ o.order_type = OrderType.LIMIT ∧ t = "RUB"
     then remaining o * o.price.getD 0 else 0)
  else 0

/-- Σ free balances + Σ outstanding reservations for a ticker. -/
def tickerTotal (s : Exchange) (t : String) : ℤ :=
  ((s.balances.filter (fun b => b.ticker = t)).map (·.amount)).sum +
  (s.orders.map (orderReserve t)).sum

/-- Empty exchange with the given users and listed instruments and no
balances, orders or trades. -/
def initState (users : List Nat) (instruments : List String) : Exchange :=
  { users := users, instruments := instruments, balances := [], orders := [],
    trades := [], nextOrderId := 0, clock := 0 }

/-! ### Concrete runs

`mkt*`: admin seeds 1 RUB for user 1 and 5 XYZ for user 2; user 2
places SELL LIMIT 5 XYZ @ 100; user 1 places BUY MARKET 5 XYZ. -/

def mkt1 : Exchange := (deposit (initState [1, 2] ["RUB", "XYZ"]) 1 "RUB" 1).state

def mkt2 : Exchange := (deposit mkt1 2 "XYZ" 5).state

def mkt3 : Exchange := (create_order mkt2 2 "XYZ" OrderSide.SELL 5 (some 100)).state

def mktR : ApiResult × List DealRec :=
  create_order_full mkt3 1 "XYZ" OrderSide.BUY 5 none

/-! `crash*`: user 2 rests SELL LIMIT 5 @ 10; user 1 rests BUY LIMIT
5 @ 7; user 3 places SELL MARKET 10, fills 5 against user 1 and rests
PARTIALLY_FILLED with a NULL price; user 4 then places BUY MARKET 8:
the first fill (against user 2, 5 @ 10) commits, after which the loop
reaches user 3's NULL-price row and raises. -/

def crash1 : Exchange := (deposit (initState [1, 2, 3, 4] ["RUB", "XYZ"]) 1 "RUB" 1000).state

def crash2 : Exchange := (deposit crash1 2 "XYZ" 5).state

def crash3 : Exchange := (deposit crash2 3 "XYZ" 10).state

def crash4 : Exchange := (create_order crash3 2 "XYZ" OrderSide.SELL 5 (some 10)).state

def crash5 : Exchange := (create_order crash4 1 "XYZ" OrderSide.BUY 5 (some 7)).state

def crash6 : Exchange := (create_order crash5 3 "XYZ" OrderSide.SELL 10 none).state

def crash7 : Exchange := (deposit crash6 4 "RUB" 100).state

def crashR : ApiResult × List DealRec :=
  create_order_full crash7 4 "XYZ" OrderSide.BUY 8 none

/-- The row `create_order` inserts for user 4's market buy, and the
state `execute_matching` then runs on (a market buy makes no
reservation). -/
def crashTaker : Order :=
  { id := crash7.nextOrderId, userId := 4, ticker := "XYZ",
    order_type := OrderType.MARKET, side := OrderSide.BUY, quantity := 8,
    price := none, filled_quantity := 0, status := OrderStatus.OPEN,
    createdAt := crash7.clock }

def crashPre : Exchange :=
  { crash7 with
      orders := crash7.orders ++ [crashTaker],
      nextOrderId := crash7.nextOrderId + 1,
      clock := crash7.clock + 1 }

/-! `fifo*`: two SELL LIMIT 5 @ 50 rest, order 0 (user 2) entered
before order 1 (user 3); user 1 then places BUY LIMIT 5 @ 50. -/

def fifo1 : Exchange := (deposit (initState [1, 2, 3] ["RUB", "XYZ"]) 2 "XYZ" 5).state

def fifo2 : Exchange := (deposit fifo1 3 "XYZ" 5).state

def fifo3 : Exchange := (deposit fifo2 1 "RUB" 250).state

def fifo4 : Exchange := (create_order fifo3 2 "XYZ" OrderSide.SELL 5 (some 50)).state

def fifo5 : Exchange := (create_order fifo4 3 "XYZ" OrderSide.SELL 5 (some 50)).state

/-- The row `create_order` inserts for user 1's BUY LIMIT 5 @ 50. -/
def fifoTaker : Order :=
  { id := fifo5.nextOrderId, userId := 1, ticker := "XYZ",
    order_type := OrderType.LIMIT, side := OrderSide.BUY, quantity := 5,
    price := some 50, filled_quantity := 0, status := OrderStatus.OPEN,
    createdAt := fifo5.clock }

/-- State `execute_matching` runs on: taker row inserted, 250 RUB
reserved. -/
def fifoPre : Exchange :=
  { fifo5 with
      orders := fifo5.orders ++ [fifoTaker],
      nextOrderId := fifo5.nextOrderId + 1,
      clock := fifo5.clock + 1,
      balances := mapFirstBalance fifo5.balances 1 "RUB" (· - 250) }

/-- A list is a result the counter-query of `execute_matching` may
return: the same rows the SQL filter selects, in some order sorted by
price alone — the source adds no further ORDER BY key, so every such
order is a legitimate database answer. -/
def isCounterQueryResult (s : Exchange) (order : Order) (l : List Order) : Prop :=
  l.Perm (s.orders.filter (fun o => decide (counterFilter order o))) ∧
  l.Sorted (fun a b => sideRel order.side a.price b.price)

instance (s : Exchange) (order : Order) (l : List Order) :
    Decidable (isCounterQueryResult s order l) := by
  unfold isCounterQueryResult; exact instDecidableAnd

/-! `selftrade*`: user 1 holds 10 XYZ and 1000 RUB and rests
SELL LIMIT 10 @ 50, then places BUY LIMIT 10 @ 60 themselves. -/

def selftrade1 : Exchange := (deposit (initState [1] ["RUB", "XYZ"]) 1 "XYZ" 10).state

def selftrade2 : Exchange := (deposit selftrade1 1 "RUB" 1000).state

def selftrade3 : Exchange := (create_order selftrade2 1 "XYZ" OrderSide.SELL 10 (some 50)).state

def selftradeR : ApiResult × List DealRec :=
  create_order_full selftrade3 1 "XYZ" OrderSide.BUY 10 (some 60)

/-! `improve*` (spec scenario S1): user 2 rests SELL LIMIT 10 @ 50;
user 1 places BUY LIMIT 5 @ 60 and is refunded the 5·10 RUB price
improvement. -/

def improve1 : Exchange := (deposit (initState [1, 2] ["RUB", "XYZ"]) 1 "RUB" 1000).state

def improve2 : Exchange := (deposit improve1 2 "XYZ" 10).state

def improve3 : Exchange := (create_order improve2 2 "XYZ" OrderSide.SELL 10 (some 50)).state

def improveR : ApiResult × List DealRec :=
  create_order_full improve3 1 "XYZ" OrderSide.BUY 5 (some 60)

/-! `book*`: user 2 rests SELL LIMIT 10 @ 50, user 1's BUY LIMIT
4 @ 50 fills 4, leaving the sell PARTIALLY_FILLED with remaining 6.
The snapshot query (status == OPEN only) then shows no asks at all. -/

def book1 : Exchange := (deposit (initState [1, 2] ["RUB", "XYZ"]) 1 "RUB" 1000).state

def book2 : Exchange := (deposit book1 2 "XYZ" 10).state

def book3 : Exchange := (create_order book2 2 "XYZ" OrderSide.SELL 10 (some 50)).state

def book4 : Exchange := (create_order book3 1 "XYZ" OrderSide.BUY 4 (some 50)).state

/-- Error code of an endpoint outcome, `none` on success. -/
def ApiResult.errCode : ApiResult → Option ApiError
  | ApiResult.ok _ _ => none
  | ApiResult.err e _ => some e

/-- Price of the order row with id `cid` (`none` when the row is
missing or the price column is NULL). -/
def priceOf (s : Exchange) (cid : Nat) : Option ℤ :=
  (findOrder s.orders cid).bind (·.price)

/-- Total quantity recorded in a level list at price key `p`. -/
def entryVal (ls : List (Option ℤ × ℤ)) (p : Option ℤ) : ℤ :=
  ((ls.filter (fun e => e.1 = p)).map (·.2)).sum

/-- Total remaining quantity of the orders in `os` at price `p`. -/
def sumRemaining (os : List Order) (p : Option ℤ) : ℤ :=
  ((os.filter (fun o => o.price = p)).map remaining).sum

/-- The earlier resting sell of the `fifo` run (order 0, user 2,
entered at time 0). -/
def fifoA : Order :=
  { id := 0, userId := 2, ticker := "XYZ", order_type := OrderType.LIMIT,
    side := OrderSide.SELL, quantity := 5, price := some 50,
    filled_quantity := 0, status := OrderStatus.OPEN, createdAt := 0 }

/-- The later resting sell of the `fifo` run (order 1, user 3, entered
at time 1, same price level 50). -/
def fifoB : Order :=
  { id := 1, userId := 3, ticker := "XYZ", order_type := OrderType.LIMIT,
    side := OrderSide.SELL, quantity := 5, price := some 50,
    filled_quantity := 0, status := OrderStatus.OPEN, createdAt := 1 }

/-- The resting sell of the `improve` run (order 0, user 2). -/
def improveSell : Order :=
  { id := 0, userId := 2, ticker := "XYZ", order_type := OrderType.LIMIT,
    side := OrderSide.SELL, quantity := 10, price := some 50,
    filled_quantity := 0, status := OrderStatus.OPEN, createdAt := 0 }

/-- The row `create_order` inserts for user 1's BUY LIMIT 5 @ 60 in the
`improve` run. -/
def improveTaker : Order :=
  { id := improve3.nextOrderId, userId := 1, ticker := "XYZ",
    order_type := OrderType.LIMIT, side := OrderSide.BUY, quantity := 5,
    price := some 60, filled_quantity := 0, status := OrderStatus.OPEN,
    createdAt := improve3.clock }

/-- State `execute_matching` runs on in the `improve` run: taker row
inserted, 300 RUB reserved. -/
def improvePre : Exchange :=
  { improve3 with
      orders := improve3.orders ++ [improveTaker],
      nextOrderId := improve3.nextOrderId + 1,
      clock := improve3.clock + 1,
      balances := mapFirstBalance improve3.balances 1 "RUB" (· - 300) }

end WW

namespace WW

/-! ### Helper lemmas: the `transactions` relation is never written -/

theorem execute_deal_trades (s : Exchange) (o c : Order) (q p : ℤ) :
    (execute_deal s o c q p).trades = s.trades := rfl

theorem matchLoop_trades :
    ∀ (l : List Nat) (s : Exchange) (oid : Nat),
      ((matchLoop s oid l).1).trades = s.trades := by
  intro l
  induction l with
  | nil => intro s oid; rfl
  | cons cid rest ih =>
    intro s oid
    simp only [matchLoop]
    cases h1 : findOrder s.orders oid with
    | none => rfl
    | some order =>
      cases h2 : findOrder s.orders cid with
      | none => rfl
      | some counter =>
        by_cases hb : order.quantity ≤ order.filled_quantity
        · simp [hb]
        · by_cases hu : counter.userId = order.userId
          · simp [hb, hu, ih]
          · cases hp : counter.price with
            | none => simp [hb, hu, hp]
            | some p =>
              simp only [hb, hu, hp, if_neg, if_pos]
              simp only [ite_false, ite_true]
              rw [ih]
              exact execute_deal_trades ..

theorem execute_matching_on_trades (s : Exchange) (oid : Nat) (l : List Nat) :
    ((execute_matching_on s oid l).1).trades = s.trades := by
  unfold execute_matching_on
  cases h : findOrder s.orders oid with
  | none => rfl
  | some order =>
    by_cases hst : order.status ≠ OrderStatus.OPEN
    · simp [hst]
    · by_cases herr : (matchLoop s oid l).2.2
      · simp [hst, herr, matchLoop_trades]
      · simp [hst, herr, matchLoop_trades]

theorem execute_matching_trades (s : Exchange) (oid : Nat) :
    ((execute_matching s oid).1).trades = s.trades := by
  unfold execute_matching
  cases h : findOrder s.orders oid with
  | none => rfl
  | some order => exact execute_matching_on_trades ..

theorem cancel_funds_trades (s : Exchange) (oid : Nat) :
    (cancel_order_and_return_funds s oid).trades = s.trades := by
  unfold cancel_order_and_return_funds
  cases h : findOrder s.orders oid <;> rfl

/-! ### Helper lemmas: balance-row lookups under the row mutators -/

theorem findBalance_mapFirst_self (bs : List Balance) (u : Nat) (t : String)
    (f : ℤ → ℤ) :
    findBalance (mapFirstBalance bs u t f) u t =
      (findBalance bs u t).map (fun b => { b with amount := f b.amount }) := by
  induction bs with
  | nil => rfl
  | cons b rest ih =>
    by_cases h : b.userId = u ∧ b.ticker = t
    · simp [mapFirstBalance, findBalance, h]
    · simp only [mapFirstBalance, if_neg h]
      simp only [findBalance] at ih ⊢
      rw [List.find?_cons_of_neg _ (by simpa using h),
          List.find?_cons_of_neg _ (by simpa using h), ih]

theorem findBalance_mapFirst_ne (bs : List Balance) (u : Nat) (t : String)
    (f : ℤ → ℤ) (u' : Nat) (t' : String) (h : u' ≠ u ∨ t' ≠ t) :
    findBalance (mapFirstBalance bs u t f) u' t' = findBalance bs u' t' := by
  induction bs with
  | nil => rfl
  | cons b rest ih =>
    by_cases hb : b.userId = u ∧ b.ticker = t
    · have hb' : ¬(b.userId = u' ∧ b.ticker = t') := by
        rcases h with h | h
        · exact fun hc => h (hc.1 ▸ hb.1.symm ▸ rfl)
        · exact fun hc => h (hc.2 ▸ hb.2.symm ▸ rfl)
      simp only [mapFirstBalance, if_pos hb]
      simp only [findBalance]
      rw [List.find?_cons_of_neg _ (by simpa using hb'),
          List.find?_cons_of_neg _ (by simpa using hb')]
    · simp only [mapFirstBalance, if_neg hb]
      simp only [findBalance] at ih ⊢
      by_cases hb' : b.userId = u' ∧ b.ticker = t'
      · rw [List.find?_cons_of_pos _ (by simpa using hb'),
            List.find?_cons_of_pos _ (by simpa using hb')]
      · rw [List.find?_cons_of_neg _ (by simpa using hb'),
            List.find?_cons_of_neg _ (by simpa using hb'), ih]

theorem findBalance_credit_ne (bs : List Balance) (u : Nat) (t : String)
    (d : ℤ) (u' : Nat) (t' : String) (h : u' ≠ u ∨ t' ≠ t) :
    findBalance (creditBalance bs u t d) u' t' = findBalance bs u' t' := by
  unfold creditBalance
  cases hf : findBalance bs u t with
  | some b => exact findBalance_mapFirst_ne bs u t _ u' t' h
  | none =>
    unfold findBalance
    rw [List.find?_append]
    have hne : ¬((u : Nat) = u' ∧ t = t') := by
      rcases h with h | h
      · exact fun hc => h hc.1.symm
      · exact fun hc => h hc.2.symm
    have hnew : (List.find? (fun b => decide (b.userId = u' ∧ b.ticker = t'))
        [(⟨u, t, d⟩ : Balance)]) = none := by
      simp [List.find?, hne]
    rw [hnew]
    simp

/-! ### Helper lemmas: order-row lookups under `updateOrder` -/

theorem findOrder_update (os : List Order) (oid : Nat) (f : Order → Order)
    (hid : ∀ o, (f o).id = o.id) (i : Nat) :
    findOrder (updateOrder os oid f) i =
      (findOrder os i).map (fun o => if o.id = oid then f o else o) := by
  induction os with
  | nil => rfl
  | cons o rest ih =>
    have hgid : (if o.id = oid then f o else o).id = o.id := by
      split <;> simp [hid]
    unfold updateOrder findOrder at ih ⊢
    simp only [List.map_cons]
    by_cases h : o.id = i
    · rw [List.find?_cons_of_pos _ (by simp only [hgid, decide_eq_true_eq]; exact h),
          List.find?_cons_of_pos _ (by simp only [decide_eq_true_eq]; exact h)]
      rfl
    · rw [List.find?_cons_of_neg _ (by simp only [hgid, decide_eq_true_eq]; exact h),
          List.find?_cons_of_neg _ (by simp only [decide_eq_true_eq]; exact h)]
      exact ih

/-! ### Helper lemmas: what a deal leaves untouched on order rows -/

theorem priceOf_updateOrder (os : List Order) (oid : Nat) (f : Order → Order)
    (i : Nat) (hid : ∀ o, (f o).id = o.id) (hpr : ∀ o, (f o).price = o.price) :
    (findOrder (updateOrder os oid f) i).bind (·.price) =
      (findOrder os i).bind (·.price) := by
  rw [findOrder_update os oid f hid i]
  cases findOrder os i with
  | none => rfl
  | some o =>
    show (if o.id = oid then f o else o).price = o.price
    split
    · rw [hpr]
    · rfl

theorem isSome_findOrder_updateOrder (os : List Order) (oid : Nat)
    (f : Order → Order) (i : Nat) (hid : ∀ o, (f o).id = o.id) :
    (findOrder (updateOrder os oid f) i).isSome = (findOrder os i).isSome := by
  rw [findOrder_update os oid f hid i]
  cases findOrder os i <;> rfl

theorem priceOf_execute_deal (s : Exchange) (ord ctr : Order) (q p : ℤ)
    (i : Nat) : priceOf (execute_deal s ord ctr q p) i = priceOf s i := by
  unfold priceOf execute_deal
  dsimp only
  refine (priceOf_updateOrder _ ctr.id _ i ?_ ?_).trans
    (priceOf_updateOrder _ ord.id _ i ?_ ?_)
  all_goals intro o
  all_goals rfl

theorem isSome_findOrder_execute_deal (s : Exchange) (ord ctr : Order)
    (q p : ℤ) (i : Nat) :
    (findOrder (execute_deal s ord ctr q p).orders i).isSome =
      (findOrder s.orders i).isSome := by
  unfold execute_deal
  dsimp only
  refine (isSome_findOrder_updateOrder _ ctr.id _ i ?_).trans
    (isSome_findOrder_updateOrder _ ord.id _ i ?_)
  all_goals intro o
  all_goals rfl

/-! ### Helper lemmas: the matching loop follows the query order -/

/-- Every deal the loop executes is priced at the price its counter-row
had when the loop started, and the executed (counter, price) pairs form
a subsequence of the id list handed to the loop. -/
theorem matchLoop_pairs_sublist :
    ∀ (l : List Nat) (s : Exchange) (oid : Nat),
      ((matchLoop s oid l).2.1.map (fun e => (e.counterId, some e.price))).Sublist
        (l.map (fun c => (c, priceOf s c))) := by
  intro l
  induction l with
  | nil => intro s oid; simp [matchLoop]
  | cons cid rest ih =>
    intro s oid
    simp only [matchLoop]
    cases h1 : findOrder s.orders oid with
    | none => simp
    | some order =>
      cases h2 : findOrder s.orders cid with
      | none => simp
      | some counter =>
        by_cases hb : order.quantity ≤ order.filled_quantity
        · simp [hb]
        · by_cases hu : counter.userId = order.userId
          · simp only [if_neg hb, if_pos hu, List.map_cons]
            exact List.Sublist.trans (ih s oid) (List.sublist_cons_self _ _)
          · cases hp : counter.price with
            | none =>
              simp only [if_neg hb, if_neg hu, hp, List.map_nil]
              exact List.nil_sublist _
            | some p =>
              simp only [if_neg hb, if_neg hu, hp, List.map_cons]
              have hpr : priceOf s cid = some p := by
                simp [priceOf, h2, hp]
              rw [hpr]
              refine List.Sublist.cons₂ _ ?_
              have htail := ih (execute_deal s order counter
                (min (order.quantity - order.filled_quantity)
                  (counter.quantity - counter.filled_quantity)) p) oid
              simpa only [priceOf_execute_deal] using htail

/-- Every deal the loop logs is priced at the price its counter-row
had at loop entry. -/
theorem matchLoop_maker_price (s : Exchange) (oid : Nat) (l : List Nat)
    (e : DealRec) (he : e ∈ (matchLoop s oid l).2.1) :
    priceOf s e.counterId = some e.price := by
  have hsub := matchLoop_pairs_sublist l s oid
  have hmem : (e.counterId, some e.price) ∈
      l.map (fun c => (c, priceOf s c)) :=
    hsub.subset (List.mem_map_of_mem _ he)
  rcases List.mem_map.mp hmem with ⟨c, _, hpair⟩
  have h1 : c = e.counterId := congrArg Prod.fst hpair
  have h2 : priceOf s c = some e.price := congrArg Prod.snd hpair
  rw [h1] at h2
  exact h2

/-- The deal log of `execute_matching` is the loop's log (or empty when
the taker was missing or not OPEN). -/
theorem execute_matching_on_log (s : Exchange) (oid : Nat) (l : List Nat) :
    (execute_matching_on s oid l).2.1 = (matchLoop s oid l).2.1 ∨
      (execute_matching_on s oid l).2.1 = [] := by
  unfold execute_matching_on
  cases h : findOrder s.orders oid with
  | none => exact Or.inr rfl
  | some order =>
    by_cases hst : order.status ≠ OrderStatus.OPEN
    · simp only [if_pos hst]
      exact Or.inr trivial
    · simp only [if_neg hst]
      by_cases he : (matchLoop s oid l).2.2 = true
      · simp only [if_pos he]
        exact Or.inl trivial
      · simp only [if_neg he]
        exact Or.inl trivial

/-- C6.  Maker-price rule with price-improvement refund.  First
conjunct: every deal the matching loop executes is priced at the
counter-order's (maker's) limit price as recorded in the loop-entry
state.  Second conjunct: when the buyer order is a LIMIT order with
limit `bp` (which reserved `q·bp` at placement) and the deal executes
`q` at `p < bp` against a different user on a non-RUB instrument, the
buyer's free RUB balance is credited exactly `q·bp − q·p` by the deal,
i.e. the buyer pays the maker's price, not their own limit. -/
theorem C6_maker_price_and_refund :
    (∀ (s : Exchange) (oid : Nat) (l : List Nat) (e : DealRec),
        e ∈ (execute_matching_on s oid l).2.1 →
        ∃ c, findOrder s.orders e.counterId = some c ∧
          c.price = some e.price) ∧
      (∀ (s : Exchange) (order counter : Order) (q p bp : ℤ),
        order.side = OrderSide.BUY → order.order_type = OrderType.LIMIT →
        order.price = some bp → counter.userId ≠ order.userId →
        order.ticker ≠ "RUB" → q * p < q * bp →
        getAmount (execute_deal s order counter q p) order.userId "RUB" =
          (getAmount s order.userId "RUB").map (· + (q * bp - q * p))) := by
  constructor
  · intro s oid l e he
    rcases execute_matching_on_log s oid l with h | h
    · rw [h] at he
      have hm := matchLoop_maker_price s oid l e he
      unfold priceOf at hm
      cases hf : findOrder s.orders e.counterId with
      | none => rw [hf] at hm; simp at hm
      | some c =>
        rw [hf] at hm
        exact ⟨c, rfl, by simpa using hm⟩
    · rw [h] at he
      cases he
  · intro s order counter q p bp hside htype hp hne ht hpos
    have hrefund : (0 : ℤ) < q * bp - q * p := sub_pos.mpr hpos
    unfold execute_deal getAmount
    simp only [hside, htype, hp, Option.getD_some, if_pos rfl, reduceIte]
    rw [if_pos hrefund]
    rw [findBalance_mapFirst_self]
    rw [findBalance_credit_ne _ _ _ _ _ _ (Or.inl (Ne.symm hne))]
    rw [findBalance_credit_ne _ _ _ _ _ _ (Or.inr (Ne.symm ht))]
    cases findBalance s.balances order.userId "RUB" <;> rfl

/-- Closed instance of [C6]: in the `fifo` book the single deal of the
BUY LIMIT taker is priced at the resting sell's limit 50, and in the
`improve` setting a deal of 5 at maker price 50 against a buyer limit
of 60 credits the buyer exactly 5·60 − 5·50 = 50 RUB back. -/
theorem C6_maker_price_and_refund_witness :
    (∃ c, findOrder fifoPre.orders
        (DealRec.counterId ⟨2, 0, 1, 2, 5, 50⟩) = some c ∧
        c.price = some (DealRec.price ⟨2, 0, 1, 2, 5, 50⟩)) ∧
      getAmount (execute_deal improvePre improveTaker improveSell 5 50) 1 "RUB" =
        (getAmount improvePre 1 "RUB").map (· + (5 * 60 - 5 * 50)) := by
  constructor
  · exact C6_maker_price_and_refund.1 fifoPre 2 [0, 1] ⟨2, 0, 1, 2, 5, 50⟩
      (by decide)
  · exact C6_maker_price_and_refund.2 improvePre improveTaker improveSell 5 50 60
      (by decide) (by decide) (by decide) (by decide) (by decide) (by decide)

/-- C5 amended.  Best price first holds for every row order the
database may legitimately return: whenever the id list handed to the
matching loop is sorted by price in the taker side's priority (which
is all the query's ORDER BY guarantees), the prices of the executed
deals are monotone in that same priority. -/
theorem C5_best_price_first (s : Exchange) (oid : Nat) (sd : OrderSide)
    (l : List Nat) (hl : (l.map (priceOf s)).Sorted (sideRel sd)) :
    ((execute_matching_on s oid l).2.1.map (fun e => some e.price)).Sorted
      (sideRel sd) := by
  rcases execute_matching_on_log s oid l with h | h
  · rw [h]
    have hsub := matchLoop_pairs_sublist l s oid
    have hsub2 : ((matchLoop s oid l).2.1.map (fun e => some e.price)).Sublist
        (l.map (priceOf s)) := by
      have hmap := hsub.map Prod.snd
      simpa [List.map_map, Function.comp] using hmap
    exact List.Pairwise.sublist hsub2 hl
  · rw [h]
    simp [List.Sorted]

/-- Closed instance of [C5]: the deal prices of the fifo placement are
ascending when the query result is price-sorted. -/
theorem C5_best_price_first_witness :
    (([0, 1].map (priceOf fifoPre)).Sorted (sideRel OrderSide.BUY)) ∧
      (((execute_matching_on fifoPre 2 [0, 1]).2.1.map
        (fun e => some e.price)).Sorted (sideRel OrderSide.BUY)) :=
  ⟨by decide, C5_best_price_first fifoPre 2 OrderSide.BUY [0, 1] (by decide)⟩

/-- C5 counterexample.  `[fifoB, fifoA]` is a legitimate result of the
counter-query for the fifo taker (a permutation of the eligible rows
that is sorted by price — the query has no timestamp or id tie-break),
fifoA entered the book strictly before fifoB (earlier `created_at` and
lower id, same price level 50), yet running the matching loop on that
result fills the later order fifoB completely and leaves the earlier
fifoA untouched: A does not fill before B. -/
theorem C5_fifo_violated :
    isCounterQueryResult fifoPre fifoTaker [fifoB, fifoA] ∧
      fifoA.createdAt < fifoB.createdAt ∧ fifoA.id < fifoB.id ∧
      (findOrder (execute_matching_on fifoPre 2 [fifoB.id, fifoA.id]).1.orders
          fifoB.id).map (·.status) = some OrderStatus.FILLED ∧
      (findOrder (execute_matching_on fifoPre 2 [fifoB.id, fifoA.id]).1.orders
          fifoA.id).map (·.filled_quantity) = some 0 := by
  refine ⟨by decide, by decide, by decide, by decide, by decide⟩

/-- No logged deal ever has the loop's taker and counter owned by the
same user: the loop skips those rows. -/
theorem matchLoop_no_self :
    ∀ (l : List Nat) (s : Exchange) (oid : Nat) (e : DealRec),
      e ∈ (matchLoop s oid l).2.1 → e.buyerId ≠ e.sellerId := by
  intro l
  induction l with
  | nil =>
    intro s oid e he
    simp [matchLoop] at he
  | cons cid rest ih =>
    intro s oid e he
    simp only [matchLoop] at he
    split at he
    · rename_i order counter h1 h2
      split at he
      · simp at he
      · split at he
        · exact ih s oid e he
        · rename_i hu
          split at he
          · simp at he
          · rename_i p hp
            simp only [List.mem_cons] at he
            rcases he with rfl | he
            · dsimp only
              by_cases hs : order.side = OrderSide.BUY
              · simp only [if_pos hs]
                exact fun hh => hu hh.symm
              · simp only [if_neg hs]
                exact hu
            · exact ih _ oid e he
    · simp at he

/-- C7.  No self-trade.  First conjunct: every deal the matching
engine executes has buyer ≠ seller, for any state and any row order
the query may return — the loop skips rows owned by the taker's user.
Second conjunct: in the `selftrade` run (user 1 bids against their own
resting sell, the only eligible counter-order) nothing matches: the
deal log is empty, and the resting sell stays OPEN with filled 0. -/
theorem C7_no_self_trade :
    (∀ (s : Exchange) (oid : Nat) (l : List Nat) (e : DealRec),
        e ∈ (execute_matching_on s oid l).2.1 → e.buyerId ≠ e.sellerId) ∧
      selftradeR.2 = [] ∧
      (findOrder selftradeR.1.state.orders 0).map
        (fun o => (o.status, o.filled_quantity)) = some (OrderStatus.OPEN, 0) := by
  refine ⟨?_, by decide, by decide⟩
  intro s oid l e he
  rcases execute_matching_on_log s oid l with h | h
  · rw [h] at he
    exact matchLoop_no_self l s oid e he
  · rw [h] at he
    cases he

/-- Closed instance of [C7]: the single deal of the fifo placement has
buyer 1 and seller 2. -/
theorem C7_no_self_trade_witness :
    DealRec.buyerId ⟨2, 0, 1, 2, 5, 50⟩ ≠ DealRec.sellerId ⟨2, 0, 1, 2, 5, 50⟩ :=
  C7_no_self_trade.1 fifoPre 2 [0, 1] ⟨2, 0, 1, 2, 5, 50⟩ (by decide)

/-! ### Helper lemmas: the taker row survives the matching loop -/

theorem matchLoop_isSome :
    ∀ (l : List Nat) (s : Exchange) (oid i : Nat),
      (findOrder ((matchLoop s oid l).1).orders i).isSome =
        (findOrder s.orders i).isSome := by
  intro l
  induction l with
  | nil => intro s oid i; rfl
  | cons cid rest ih =>
    intro s oid i
    simp only [matchLoop]
    cases h1 : findOrder s.orders oid with
    | none => rfl
    | some order =>
      cases h2 : findOrder s.orders cid with
      | none => rfl
      | some counter =>
        by_cases hb : order.quantity ≤ order.filled_quantity
        · simp [hb]
        · by_cases hu : counter.userId = order.userId
          · simp [hb, hu, ih]
          · cases hp : counter.price with
            | none => simp [hb, hu, hp]
            | some p =>
              simp only [if_neg hb, if_neg hu, hp]
              rw [ih]
              exact isSome_findOrder_execute_deal ..

theorem execute_matching_isSome (s : Exchange) (oid i : Nat) :
    (findOrder ((execute_matching s oid).1).orders i).isSome =
      (findOrder s.orders i).isSome := by
  unfold execute_matching execute_matching_on
  cases h : findOrder s.orders oid with
  | none => rfl
  | some order =>
    by_cases hst : order.status ≠ OrderStatus.OPEN
    · simp [hst]
    · by_cases he : (matchLoop s oid ((counterQuery s order).map (·.id))).2.2 = true
      · simp only [if_neg hst, if_pos he]
        exact matchLoop_isSome ..
      · simp only [if_neg hst, if_neg he]
        rw [isSome_findOrder_updateOrder
          ((matchLoop s oid ((counterQuery s order).map (·.id))).1.orders) oid
          (fun o => { o with status := finalStatus o }) i (fun o => rfl)]
        exact matchLoop_isSome ((counterQuery s order).map (·.id)) s oid i

theorem findOrder_append_self (os : List Order) (o : Order) :
    (findOrder (os ++ [o]) o.id).isSome = true := by
  unfold findOrder
  rw [List.find?_append]
  cases h : os.find? (fun x => decide (x.id = o.id)) <;> simp [List.find?]

/-- After the compensation path, the order row is CANCELLED. -/
theorem cancel_funds_status (s : Exchange) (oid : Nat)
    (h : (findOrder s.orders oid).isSome = true) :
    (findOrder (cancel_order_and_return_funds s oid).orders oid).map (·.status) =
      some OrderStatus.CANCELLED := by
  unfold cancel_order_and_return_funds
  cases hf : findOrder s.orders oid with
  | none => rw [hf] at h; cases h
  | some o =>
    dsimp only
    rw [findOrder_update s.orders oid
      (fun o => { o with status := OrderStatus.CANCELLED }) (fun o => rfl) oid, hf]
    have hid : o.id = oid := by
      have := List.find?_some hf
      simpa using this
    simp [hid]

/-- C4 counterexample.  In the `crash` run the placement of user 4's
market buy fails inside the matching loop (500 returned), yet the fill
executed before the failure stays committed: user 2's resting sell is
FILLED and user 2 holds 50 RUB that did not exist before the call.
The reservation and each deal are separate commits, so an error inside
matching does not roll back the deal's effects, and the caller does
observe a partially matched state persisted. -/
theorem C4_error_persists_partial_match :
    crashR.1.errCode = some ApiError.internal ∧
      getAmount crash7 2 "RUB" = none ∧
      getAmount crashR.1.state 2 "RUB" = some 50 ∧
      (findOrder crashR.1.state.orders 0).map (·.status) =
        some OrderStatus.FILLED ∧
      (findOrder crashR.1.state.orders 3).map
        (fun o => (o.status, o.filled_quantity)) =
          some (OrderStatus.CANCELLED, 5) := by
  refine ⟨by decide, by decide, by decide, by decide, by decide⟩

/-- C4 amended.  Each deal's effects are applied together in that
deal's own commit, but distinct deals of one placement and the
reservation commit separately; an error inside matching triggers a
compensating cancellation rather than a rollback: whenever
`create_order` surfaces an internal error while the RUB instrument
exists (i.e. the matching path failed), the taker's order row exists
in the returned state and is CANCELLED (its remaining reservation
refunded by `cancel_order_and_return_funds`), while effects of deals
committed before the failure remain. -/
theorem C4_error_path_cancels_taker :
    ∀ (s : Exchange) (u : Nat) (t : String) (sd : OrderSide) (q : ℤ)
      (p : Option ℤ) (s' : Exchange),
      "RUB" ∈ s.instruments →
      create_order s u t sd q p = ApiResult.err ApiError.internal s' →
      (findOrder s'.orders s.nextOrderId).map (·.status) =
        some OrderStatus.CANCELLED := by
  intro s u t sd q p s' hRub hEq
  unfold create_order create_order_full at hEq
  cases p <;> cases sd <;>
    simp only [Option.isSome_none, Option.isSome_some, if_true, if_false] at hEq <;>
    repeat' split at hEq
  all_goals dsimp only at hEq
  all_goals
    first
      | exact absurd hRub (by assumption)
      | (injection hEq with hE1 hE2
         subst hE2
         apply cancel_funds_status
         rw [execute_matching_isSome]
         exact findOrder_append_self _ _)
      | simp at hEq

/-- Closed instance of [C4 amended]: applying it to the `crash` run. -/
theorem C4_error_path_cancels_taker_witness :
    (findOrder crashR.1.state.orders crash7.nextOrderId).map (·.status) =
      some OrderStatus.CANCELLED :=
  C4_error_path_cancels_taker crash7 4 "XYZ" OrderSide.BUY 8 none
    crashR.1.state (by decide) (by decide)

/-! ### Helper lemmas: price-level aggregation -/

instance : IsTotal (Option ℤ × ℤ) levelAsc :=
  ⟨fun a b => IsTotal.total (r := ascPrice) a.1 b.1⟩

instance : IsTrans (Option ℤ × ℤ) levelAsc :=
  ⟨fun a b c hab hbc => IsTrans.trans (r := ascPrice) a.1 b.1 c.1 hab hbc⟩

instance : IsTotal (Option ℤ × ℤ) levelDesc :=
  ⟨fun a b => IsTotal.total (r := descPrice) a.1 b.1⟩

instance : IsTrans (Option ℤ × ℤ) levelDesc :=
  ⟨fun a b c hab hbc => IsTrans.trans (r := descPrice) a.1 b.1 c.1 hab hbc⟩

theorem entryVal_cons (x : Option ℤ × ℤ) (l : List (Option ℤ × ℤ))
    (p : Option ℤ) :
    entryVal (x :: l) p = (if x.1 = p then x.2 else 0) + entryVal l p := by
  unfold entryVal
  by_cases h : x.1 = p <;> simp [List.filter_cons, h]

theorem entryVal_addLevel (acc : List (Option ℤ × ℤ)) (p : Option ℤ) (q : ℤ)
    (p' : Option ℤ) :
    entryVal (addLevel acc p q) p' =
      entryVal acc p' + (if p = p' then q else 0) := by
  induction acc with
  | nil =>
    unfold addLevel
    rw [entryVal_cons]
    by_cases h : p = p' <;> simp [entryVal, h]
  | cons e rest ih =>
    unfold addLevel
    by_cases h : e.1 = p
    · rw [if_pos h, entryVal_cons, entryVal_cons]
      by_cases h' : e.1 = p'
      · rw [if_pos h', if_pos h', if_pos (h ▸ h')]
        ring
      · rw [if_neg h', if_neg h', if_neg (fun hc => h' (h.symm ▸ hc))]
        ring
    · rw [if_neg h, entryVal_cons, entryVal_cons, ih]
      ring

theorem entryVal_aggregate (os : List Order) (p : Option ℤ) :
    entryVal (aggregateLevels os) p = sumRemaining os p := by
  suffices h : ∀ acc, entryVal (os.foldl
      (fun acc o => addLevel acc o.price (o.quantity - o.filled_quantity)) acc) p =
      entryVal acc p + sumRemaining os p by
    have h0 := h []
    simpa [aggregateLevels, entryVal] using h0
  induction os with
  | nil =>
    intro acc
    simp [sumRemaining, entryVal]
  | cons o rest ih =>
    intro acc
    simp only [List.foldl_cons]
    rw [ih, entryVal_addLevel]
    unfold sumRemaining remaining
    by_cases h : o.price = p <;> (simp [List.filter_cons, h]; try ring)

theorem entryVal_perm {l₁ l₂ : List (Option ℤ × ℤ)} (h : l₁.Perm l₂)
    (p : Option ℤ) : entryVal l₁ p = entryVal l₂ p := by
  unfold entryVal
  exact ((h.filter _).map _).sum_eq

/-- C9 amended.  What `get_orderbook` actually returns: both sides are
price-sorted level lists (bids descending, asks ascending), and each
side reports, for every price, exactly the total remaining quantity of
the top-`limit` OPEN orders of that side (`takenSide`) at that price —
the limit is applied to orders before aggregation and
PARTIALLY_FILLED orders are not counted. -/
theorem C9_snapshot_amended :
    ∀ (s : Exchange) (t : String) (limit : Nat)
      (bids asks : List (Option ℤ × ℤ)),
      get_orderbook s t limit = some (bids, asks) →
      bids.Sorted levelDesc ∧ asks.Sorted levelAsc ∧
      (∀ p, entryVal bids p =
        sumRemaining (takenSide s t OrderSide.BUY limit) p) ∧
      (∀ p, entryVal asks p =
        sumRemaining (takenSide s t OrderSide.SELL limit) p) := by
  intro s t limit bids asks h
  unfold get_orderbook at h
  split at h
  · cases h
  · injection h with h'
    have hb : (aggregateLevels (takenSide s t OrderSide.BUY limit)).insertionSort
        levelDesc = bids := congrArg Prod.fst h'
    have ha : (aggregateLevels (takenSide s t OrderSide.SELL limit)).insertionSort
        levelAsc = asks := congrArg Prod.snd h'
    subst hb
    subst ha
    refine ⟨List.sorted_insertionSort _ _, List.sorted_insertionSort _ _, ?_, ?_⟩
    · intro p
      rw [entryVal_perm (List.perm_insertionSort _ _) p, entryVal_aggregate]
    · intro p
      rw [entryVal_perm (List.perm_insertionSort _ _) p, entryVal_aggregate]

/-- Closed instance of [C9 amended] on the `crash4` book (one OPEN
sell of 5 @ 10): the single reported ask level carries the total
remaining quantity of the taken OPEN sell orders at price 10. -/
theorem C9_snapshot_amended_witness :
    entryVal [((some 10 : Option ℤ), (5 : ℤ))] (some 10) =
      sumRemaining (takenSide crash4 "XYZ" OrderSide.SELL 10) (some 10) :=
  (C9_snapshot_amended crash4 "XYZ" 10 [] [(some 10, 5)] (by decide)).2.2.2 (some 10)

/-! ### Helper lemma: lookups commute with row deletion by ticker -/

theorem find?_filter_of_imp {α} (l : List α) (p q : α → Bool)
    (h : ∀ x, p x = true → q x = true) :
    (l.filter q).find? p = l.find? p := by
  induction l with
  | nil => rfl
  | cons x rest ih =>
    by_cases hq : q x = true
    · rw [List.filter_cons_of_pos hq]
      by_cases hp : p x = true
      · rw [List.find?_cons_of_pos _ hp, List.find?_cons_of_pos _ hp]
      · rw [List.find?_cons_of_neg _ hp, List.find?_cons_of_neg _ hp, ih]
    · rw [List.filter_cons_of_neg hq]
      have hp : ¬p x = true := fun hpx => hq (h x hpx)
      rw [List.find?_cons_of_neg _ hp, ih]

/-- C10.  `delete_instrument` deletes exactly the instrument row and
the Balance and Order rows carrying the ticker, and modifies nothing
else: trades, users and counters are untouched, rows with other
tickers survive unchanged, and — for a non-RUB ticker — every user's
free RUB balance is exactly what it was, i.e. the RUB reserved by
still-open BUY LIMIT orders on the deleted ticker is not credited
back to anyone. -/
theorem C10_delete_instrument_frame :
    ∀ (s : Exchange) (tk : String), tk ∈ s.instruments → tk ≠ "RUB" →
      ∃ s', delete_instrument s tk = ApiResult.ok s' 0 ∧
        s'.trades = s.trades ∧ s'.users = s.users ∧
        s'.nextOrderId = s.nextOrderId ∧ s'.clock = s.clock ∧
        (∀ b : Balance, b ∈ s'.balances ↔ b ∈ s.balances ∧ b.ticker ≠ tk) ∧
        (∀ o : Order, o ∈ s'.orders ↔ o ∈ s.orders ∧ o.ticker ≠ tk) ∧
        (∀ i : String, i ∈ s'.instruments ↔ i ∈ s.instruments ∧ i ≠ tk) ∧
        (∀ u : Nat, getAmount s' u "RUB" = getAmount s u "RUB") := by
  intro s tk hmem hne
  refine ⟨{ s with
      instruments := s.instruments.filter (fun t => t ≠ tk),
      balances := s.balances.filter (fun b => b.ticker ≠ tk),
      orders := s.orders.filter (fun o => o.ticker ≠ tk) },
    ?_, rfl, rfl, rfl, rfl, ?_, ?_, ?_, ?_⟩
  · unfold delete_instrument
    rw [if_neg (by simpa using hmem)]
  · intro b
    simp [List.mem_filter]
  · intro o
    simp [List.mem_filter]
  · intro i
    simp [List.mem_filter]
  · intro u
    unfold getAmount findBalance
    dsimp only
    rw [find?_filter_of_imp]
    intro x hx
    simp only [decide_eq_true_eq] at hx ⊢
    exact fun hc => hne (by rw [← hc, hx.2])

/-- Closed instance of [C10]: deleting XYZ after the `crash` run keeps
user 1's free RUB unchanged (no refund of reservations on XYZ). -/
theorem C10_delete_instrument_frame_witness :
    getAmount (delete_instrument crash7 "XYZ").state 1 "RUB" =
      getAmount crash7 1 "RUB" := by
  obtain ⟨s', heq, -, -, -, -, -, -, -, hR⟩ :=
    C10_delete_instrument_frame crash7 "XYZ" (by decide) (by decide)
  rw [heq]
  exact hR 1

/-- C1.  Conservation fails on the code: seeding 1 RUB (user 1) and
5 XYZ (user 2) and letting user 2 rest SELL LIMIT 5 XYZ @ 100 keeps
the RUB total (free balances + outstanding reservations) at the net
admin deposit of 1; but when user 1 places BUY MARKET 5 XYZ, the deal
credits the seller 500 RUB without ever debiting the market buyer
(`execute_deal` has no debit leg for a MARKET buyer), so the RUB total
jumps to 501 ≠ 1 although no admin operation happened in between. -/
theorem C1_conservation_broken_by_market_buy :
    tickerTotal mkt2 "RUB" = 1 ∧ tickerTotal mkt3 "RUB" = 1 ∧
      tickerTotal mktR.1.state "RUB" = 501 ∧ (501 : ℤ) ≠ 1 := by
  refine ⟨by decide, by decide, by decide, by decide⟩

/-- C2.  The MARKET-buy debit and per-step funds check do not exist in
the code: in the `mkt` run user 1's free RUB is 1, yet the matcher
executes the full fill of 5 units at price 100 (deal value 500 > 1),
the placement succeeds, the buyer order ends FILLED, and the buyer's
free RUB is still 1 afterwards — no `q·p` debit at deal time and no
loop stop on insufficient funds. -/
theorem C2_market_buyer_never_debited :
    getAmount mkt3 1 "RUB" = some 1 ∧ (1 : ℤ) < 5 * 100 ∧
      mktR.2 = [⟨1, 0, 1, 2, 5, 100⟩] ∧
      mktR.1.errCode = none ∧
      (findOrder mktR.1.state.orders 1).map (·.status) = some OrderStatus.FILLED ∧
      getAmount mktR.1.state 1 "RUB" = some 1 := by
  refine ⟨by decide, by decide, by decide, by decide, by decide, by decide⟩

/-- C3.  No deal ever appends a Trade record: a whole `create_order`
call — whatever it matches — leaves the `transactions` relation
exactly as it was (`execute_deal` constructs no `models.Transaction`),
while the `mkt` run shows a placement that does produce a fill.  So
after a placement with k > 0 fills the trade history of the ticker has
grown by 0 records, not k, and the public history stays empty. -/
theorem C3_placement_never_appends_trade :
    (∀ (s : Exchange) (u : Nat) (t : String) (sd : OrderSide) (q : ℤ)
        (p : Option ℤ),
        ((create_order_full s u t sd q p).1).state.trades = s.trades) ∧
      mktR.2 ≠ [] ∧ mktR.1.state.trades = [] := by
  refine ⟨?_, by decide, by decide⟩
  intro s u t sd q p
  unfold create_order_full
  cases p <;> cases sd <;>
    simp only [Option.isSome_none, Option.isSome_some, if_true, if_false] <;>
    repeat' split
  all_goals
    simp only [ApiResult.state, cancel_funds_trades, execute_matching_trades]

/-- C8.  A partially filled MARKET order does rest in a matchable
status and is selected as a counter-order: after the `crash` script,
order 2 is a MARKET SELL in status PARTIALLY_FILLED, the counter-query
for user 4's MARKET BUY returns it (ids `[0, 2]`), and the matching of
that placement consequently aborts (`deal_price` is the NULL price of
order 2) so the endpoint returns a 500. -/
theorem C8_resting_market_order_selected_as_counter :
    (findOrder crash7.orders 2).map (fun o => (o.order_type, o.status)) =
        some (OrderType.MARKET, OrderStatus.PARTIALLY_FILLED) ∧
      (counterQuery crashPre crashTaker).map (·.id) = [0, 2] ∧
      (execute_matching crashPre crash7.nextOrderId).2.2 = true ∧
      crashR.1.errCode = some ApiError.internal := by
  refine ⟨by decide, by decide, by decide, by decide⟩

/-- C9 counterexample.  After the `book` script the sell order is
PARTIALLY_FILLED with remaining 6 @ 50; the claimed snapshot
(aggregate over OPEN and PARTIALLY_FILLED first, then top levels)
shows the ask level (50, 6), while `get_orderbook` — which filters
`status == OPEN` only and applies `.limit()` to orders before
aggregating — returns no asks at all. -/
theorem C9_snapshot_differs_from_spec :
    get_orderbook book4 "XYZ" 10 ≠ snapshotSpec book4 "XYZ" 10 ∧
      get_orderbook book4 "XYZ" 10 = some ([], []) ∧
      snapshotSpec book4 "XYZ" 10 = some ([], [(some 50, 6)]) := by
  refine ⟨by decide, by decide, by decide⟩

end WW
